import Mathlib

/-!
Shallow embedding of the Leumit-league auto-update script
(`auto-update-db.py`) and verification of its specification claims.

Conventions of the embedding:
* Python strings are Lean `String`s; all string *processing* (split, strip,
  digit parsing, substring search) is implemented over the underlying
  character list `String.data`, faithfully mirroring the Python operations,
  so that every definition is executable by kernel reduction.
* Python/pandas floats are modelled as exact rationals `ℚ`.  Arithmetic is
  expressed through `qadd`/`qsub`/`qmul`/`qdiv`/... which are the standard
  rational operations written via `mkRat` (proved below to agree with the
  library operations); this keeps closed terms kernel-computable.
* `round(x, k)` (Python's banker's rounding, here applied to exact
  rationals) is `round1`/`round2` via `roundHalfEven`.
* pandas non-finite float results (`inf`, produced by `x / 0` with `x ≠ 0`)
  are modelled by `none : Option ℚ`; `NaN` produced by `0 / 0` is replaced
  by `fillna(0)` in the source, which the model applies directly.
* A Python dict holding heterogeneous scraped values is modelled as a
  function `String → Option Value`.
-/

namespace LeumitDB

/-! ### Exact rational arithmetic, kernel-computable -/

/-- Rational addition written via `mkRat` (agrees with `+`, see `qadd_eq`). -/
def qadd (a b : ℚ) : ℚ := mkRat (a.num * b.den + b.num * a.den) (a.den * b.den)

/-- Rational subtraction written via `mkRat` (agrees with `-`). -/
def qsub (a b : ℚ) : ℚ := mkRat (a.num * b.den - b.num * a.den) (a.den * b.den)

/-- Rational multiplication written via `mkRat` (agrees with `*`). -/
def qmul (a b : ℚ) : ℚ := mkRat (a.num * b.num) (a.den * b.den)

/-- Rational division written via `mkRat`; division by zero yields 0
(callers below always guard the zero case separately, as the source does). -/
def qdiv (a b : ℚ) : ℚ :=
  if 0 ≤ b.num then mkRat (a.num * (b.den : ℤ)) (a.den * b.num.natAbs)
  else mkRat (-(a.num * (b.den : ℤ))) (a.den * b.num.natAbs)

/-- Embed an integer into `ℚ`. -/
def qofi (n : ℤ) : ℚ := mkRat n 1

/-- Embed a natural number into `ℚ`. -/
def qofn (n : ℕ) : ℚ := mkRat n 1

/-- Sum of a list of rationals. -/
def qsum (l : List ℚ) : ℚ := l.foldr qadd (qofn 0)

/-- Floor of a rational as an integer. -/
def qfloor (q : ℚ) : ℤ := Int.fdiv q.num (q.den : ℤ)

/-- Round a rational to the nearest integer, ties to even — the tie rule of
Python 3's `round` (banker's rounding), applied to exact rationals. -/
def roundHalfEven (y : ℚ) : ℤ :=
  let f := qfloor y
  let r := qsub y (qofi f)
  if r < mkRat 1 2 then f
  else if mkRat 1 2 < r then f + 1
  else if f % 2 = 0 then f else f + 1

/-- Python `round(x, 1)` on exact rationals. -/
def round1 (q : ℚ) : ℚ := qdiv (qofi (roundHalfEven (qmul q (qofn 10)))) (qofn 10)

/-- Python `round(x, 2)` on exact rationals. -/
def round2 (q : ℚ) : ℚ := qdiv (qofi (roundHalfEven (qmul q (qofn 100)))) (qofn 100)

/-! ### String processing primitives (Python semantics over `String.data`) -/

/-- Python whitespace characters removed by `str.strip()`. -/
def isPyWhitespace (c : Char) : Bool :=
  c = ' ' || c = '\t' || c = '\n' || c = '\r' || c = '\x0b' || c = '\x0c'

/-- Python `str.strip()` on a character list. -/
def stripChars (l : List Char) : List Char :=
  ((l.dropWhile isPyWhitespace).reverse.dropWhile isPyWhitespace).reverse

/-- Python `str.strip()`. -/
def pyStrip (s : String) : String := String.mk (stripChars s.data)

/-- ASCII decimal digit test (`str.isdigit` on the characters scraped here). -/
def isDigitChar (c : Char) : Bool := '0' ≤ c && c ≤ '9'

/-- Numeric value of a digit list (most significant first). -/
def digitsVal (l : List Char) : ℕ :=
  l.foldl (fun a c => 10 * a + (c.toNat - '0'.toNat)) 0

/-- Python `int(s)` for a string that `str.isdigit` accepts; `none` otherwise. -/
def digitsToNat? (l : List Char) : Option ℕ :=
  if l ≠ [] && l.all isDigitChar then some (digitsVal l) else none

/-- The source idiom `int(v) if v.isdigit() else 0` applied to an
already-stripped string. -/
def pyDigitInt (s : String) : ℤ :=
  match digitsToNat? s.data with
  | some n => (n : ℤ)
  | none => 0

/-- Python `int(s)` on a general string: strip whitespace, optional sign,
then decimal digits; `none` models a raised `ValueError`. -/
def pyIntOpt (s : String) : Option ℤ :=
  match stripChars s.data with
  | [] => none
  | c :: rest =>
    if c = '-' then (digitsToNat? rest).map (fun n => -(n : ℤ))
    else if c = '+' then (digitsToNat? rest).map (fun n => (n : ℤ))
    else (digitsToNat? (c :: rest)).map (fun n => (n : ℤ))

/-- Python `s.split(sep)` for a single-character separator, as used by the source
(`split('-')`, `split(':')`). -/
def pySplitChar (sep : Char) (s : String) : List String :=
  (s.data.splitOn sep).map String.mk

/-- Python substring test `sub in s` (contiguous occurrence). -/
def pyInStr (sub s : String) : Bool :=
  s.data.tails.any (fun t => sub.data.isPrefixOf t)

/-- Python membership test of a single character in a string. -/
def pyHasChar (c : Char) (s : String) : Bool := s.data.contains c

/-- Python `s.startswith(pre)`. -/
def pyStartsWith (pre s : String) : Bool := pre.data.isPrefixOf s.data

/-! ### Team identity resolver (`load_team_mapping` / `normalize_team_name`,
source lines 38-82) -/

/-- One row of the `team_names.csv` reference table. -/
structure TeamNameRow where
  normalized_name : String
  player_details_name : String
  schedule_team_name : String
  short_name : Option String
deriving DecidableEq

/-- The `(variant, canonical)` insertions performed for one reference row, in
program order: `player_details_name`, `schedule_team_name`, the canonical
self-mapping, then (if present, `pd.notna`) the short name. -/
def rowPairs (r : TeamNameRow) : List (String × String) :=
  [(r.player_details_name, r.normalized_name),
   (r.schedule_team_name, r.normalized_name),
   (r.normalized_name, r.normalized_name)] ++
  (match r.short_name with
   | some s => [(s, r.normalized_name)]
   | none => [])

/-- All insertions of a run, in program order. -/
def allPairs (rows : List TeamNameRow) : List (String × String) :=
  rows.flatMap rowPairs

/-- Lookup in the dictionary model: the head of the list is the most recent
insertion, so the first hit is the surviving dict entry. -/
def dlookup : List (String × String) → String → Option String
  | [], _ => none
  | (k, v) :: rest, key => if key = k then some v else dlookup rest key

/-- The function `load_team_mapping`: fold the reference rows into a dictionary.  An
insertion is modelled by consing, so that `dlookup` sees the latest binding
for a key, exactly as Python dict assignment overwrites. -/
def load_team_mapping (rows : List TeamNameRow) : List (String × String) :=
  rows.foldl (fun m r => (rowPairs r).foldl (fun m p => p :: m) m) []

/-- The function `normalize_team_name`: empty-mapping pass-through, then exact match,
then match after stripping surrounding whitespace, else the input unchanged. -/
def normalize_team_name (team_name : String) (m : List (String × String)) : String :=
  if m = [] then team_name
  else
    match dlookup m team_name with
    | some v => v
    | none =>
      match dlookup m (pyStrip team_name) with
      | some v => v
      | none => team_name

/-- Well-formedness of a reference table: no observed name is registered
under two different canonical names. -/
def pairwiseConsistent (l : List (String × String)) : Bool :=
  l.all (fun p => l.all (fun q => p.1 ≠ q.1 || p.2 = q.2))

/-! ### Entity completeness planner (`has_any_history` / `needs_scraping`,
source lines 261-293) -/

/-- A persisted player-details row; `none` models a missing key or a
`NaN` cell, both of which the source treats as blank. -/
structure PlayerDetailsRec where
  dob : Option String
  height : Option String
  number : Option String
deriving DecidableEq

/-- A persisted player-history row: column name to cell value
(`none` = `NaN`). -/
def HistoryRec := List (String × Option String)

/-- The blank test used by `needs_scraping`:
`pd.isna(v) or str(v).strip() == ""`. -/
def blankCell : Option String → Bool
  | none => true
  | some s => pyStrip s = ""

/-- The identity/bio columns excluded when checking for real history data. -/
def bio_columns : List String :=
  ["Name", "Current Team", "Date Of Birth", "Height", "Number"]

/-- The function `has_any_history`: the player has a history record with at least one
populated non-bio column. -/
def has_any_history (h : Option HistoryRec) : Bool :=
  match h with
  | none => false
  | some cols =>
    cols.any (fun kv =>
      !(bio_columns.contains kv.1) &&
      (match kv.2 with
       | some v => pyStrip v ≠ ""
       | none => false))

/-- The function `needs_scraping`: ordered completeness rules, first match wins. -/
def needs_scraping (details : Option PlayerDetailsRec) (h : Option HistoryRec) :
    Bool × String :=
  match details with
  | none => (true, "New player")
  | some r =>
    if blankCell r.dob then (true, "Missing DOB")
    else if blankCell r.height then (true, "Missing Height")
    else if blankCell r.number then (true, "Missing Number")
    else if !has_any_history h then (true, "No history data")
    else (false, "Complete data")

/-! ### Shooting-split decomposition (`split_shooting_stats`,
source lines 525-594) -/

/-- A scraped cell value: a string cell, an already-numeric integer, or a
computed float (rational). -/
inductive Value where
  | s (str : String)
  | i (int : ℤ)
  | q (rat : ℚ)
deriving DecidableEq

/-- A stat record (Python dict): key to value. -/
def StatDict := String → Option Value

/-- Dict update `d[k] = v`. -/
def dset (d : StatDict) (k : String) (v : Value) : StatDict :=
  fun k' => if k' = k then some v else d k'

/-- Dict deletion `del d[k]`. -/
def ddel (d : StatDict) (k : String) : StatDict :=
  fun k' => if k' = k then none else d k'

/-- Decompose one composite `"M-A"` field: if the source key holds a string
containing a dash, write the made/attempted integer fields (non-digit parts
coerce to 0) and delete the composite key; otherwise leave the dict alone.
(For a non-string value whose `str()` contains a dash the Python would raise
and the record would be dropped by the caller's handler; such values never
occur for these keys, and the model leaves the dict unchanged there.) -/
def splitComposite (d : StatDict) (src mKey aKey : String) : StatDict :=
  match d src with
  | some (.s str) =>
    if pyHasChar '-' str then
      let parts := pySplitChar '-' str
      let p0 := pyStrip (parts.getD 0 "")
      let p1 := pyStrip (parts.getD 1 "")
      let d := dset d mKey (.i (pyDigitInt p0))
      let d := dset d aKey (.i (pyDigitInt p1))
      ddel d src
    else d
  | some _ => d
  | none => d

/-- One pass of the numeric-coercion loop over a shooting key: a string
strips then parses (non-digits to 0), an int passes, a float truncates
toward zero (`int(float)`). -/
def coerceKey (d : StatDict) (k : String) : StatDict :=
  match d k with
  | some (.s str) => dset d k (.i (pyDigitInt (pyStrip str)))
  | some (.i _) => d
  | some (.q r) => dset d k (.i (Int.tdiv r.num (r.den : ℤ)))
  | none => d

/-- The read `player_data.get(k, 0)` after the coercion loop (the non-int branches
are unreachable for the six shooting keys at the call sites). -/
def getIntD (d : StatDict) (k : String) : ℤ :=
  match d k with
  | some (.i n) => n
  | some (.s _) => 0
  | some (.q _) => 0
  | none => 0

/-- Percentage computation of the source:
`round(made/att * 100, 1) if att > 0 else 0.0`. -/
def pctVal (made att : ℤ) : ℚ :=
  if 0 < att then round1 (qmul (qdiv (qofi made) (qofi att)) (qofn 100))
  else qofn 0

/-- The function `split_shooting_stats`, line by line: split the three composites, coerce
the six integer fields, derive `fgm`/`fga`, recompute the four percentage
fields, and delete the upstream percentage fields. -/
def split_shooting_stats (d0 : StatDict) : StatDict :=
  let d := splitComposite d0 "fgs" "2ptm" "2pta"
  let d := splitComposite d "threeps" "3ptm" "3pta"
  let d := splitComposite d "fts" "ftm" "fta"
  let d := ["2ptm", "2pta", "3ptm", "3pta", "ftm", "fta"].foldl coerceKey d
  let two_ptm := getIntD d "2ptm"
  let two_pta := getIntD d "2pta"
  let three_ptm := getIntD d "3ptm"
  let three_pta := getIntD d "3pta"
  let d := dset d "fgm" (.i (two_ptm + three_ptm))
  let d := dset d "fga" (.i (two_pta + three_pta))
  let d := dset d "2pt_pct" (.q (pctVal two_ptm two_pta))
  let d := dset d "3pt_pct" (.q (pctVal three_ptm three_pta))
  let d := dset d "fg_pct" (.q (pctVal (getIntD d "fgm") (getIntD d "fga")))
  let d := dset d "ft_pct" (.q (pctVal (getIntD d "ftm") (getIntD d "fta")))
  let d := ddel d "fgpercent"
  let d := ddel d "threeppercent"
  ddel d "ftpercent"

/-! ### Player-stat row filtering and minutes normalization
(`scrape_player_stats`, source lines 656-679) -/

/-- The extracted fields of one performance-table row that govern inclusion:
the player-name cell and the raw minutes cell (absent key defaults to
`"00:00"` via `player_data.get('min', '00:00')`). -/
structure PlayerRow where
  player_name : Option String
  minRaw : Option String
deriving DecidableEq

/-- Minutes normalization: an `"mm:ss"` value rounds up at 30 seconds, a
bare value goes through `int`, a parse failure is caught and coerces to 0. -/
def normalize_min (s : String) : ℤ :=
  if pyHasChar ':' s then
    match pySplitChar ':' s with
    | p0 :: p1 :: _ =>
      match pyIntOpt p0, pyIntOpt p1 with
      | some mins, some secs => if 30 ≤ secs then mins + 1 else mins
      | _, _ => 0
    | _ => 0
  else
    match pyIntOpt s with
    | some n => n
    | none => 0

/-- Row inclusion test of the source: a nonempty player name, and a raw
minutes string different from both literals `'00:00'` and `'0:00'`. -/
def row_included (r : PlayerRow) : Bool :=
  (match r.player_name with
   | some n => n ≠ ""
   | none => false) &&
  (let m := r.minRaw.getD "00:00"
   m ≠ "00:00" && m ≠ "0:00")

/-- The name/minutes content of the emitted player stats for a team table. -/
def scrape_player_rows (rows : List PlayerRow) : List (String × ℤ) :=
  rows.filterMap (fun r =>
    if row_included r then
      some (r.player_name.getD "", normalize_min (r.minRaw.getD "00:00"))
    else none)

/-! ### Ranking (`calculate_averages`, source lines 1072-1098 and 1154-1168) -/

/-- pandas `Series.rank(method='min')`: each value receives one plus the
number of strictly better values (`ascending` decides the polarity). -/
def rank_min (asc : Bool) (l : List ℚ) : List ℕ :=
  l.map (fun v => 1 + l.countP (fun w => if asc then decide (w < v) else decide (v < w)))

/-- The declared higher-is-better team statistics (ranked descending). -/
def higher_better_cols : List String :=
  ["pts", "fgm", "fga", "fg_pct", "2ptm", "2pta", "2pt_pct",
   "3ptm", "3pta", "3pt_pct", "ftm", "fta", "ft_pct",
   "def", "off", "reb", "ast", "stl", "blk", "pfa", "rate",
   "second_chance_pts", "bench_pts", "fast_break_pts",
   "points_in_paint", "pts_off_turnovers", "possessions"]

/-- The declared lower-is-better team statistics (ranked ascending). -/
def lower_better_cols : List String := ["to", "pf", "blka"]

/-- Rank assignment for a team-averages column: descending for the
higher-is-better set, ascending for the lower-is-better set, none otherwise. -/
def team_rank_for (col : String) (vals : List ℚ) : Option (List ℕ) :=
  if col ∈ higher_better_cols then some (rank_min false vals)
  else if col ∈ lower_better_cols then some (rank_min true vals)
  else none

/-- The opponent-averages columns dropped before ranking. -/
def opp_cols_to_drop : List String := ["opp_bench_pts", "opp_pfa"]

/-- Rank assignment for an opponent-averages column: the dropped columns are
removed first; every remaining `opp_`-prefixed column ranks ascending except
`opp_to`, which ranks descending. -/
def opponent_rank_for (cols : List String) (col : String) (vals : List ℚ) :
    Option (List ℕ) :=
  if col ∈ cols.filter (fun c => decide (c ∉ opp_cols_to_drop)) ∧
     pyStartsWith "opp_" col = true then
    if col = "opp_to" then some (rank_min false vals)
    else some (rank_min true vals)
  else none

/-! ### Aggregation (`calculate_averages`, source lines 974-1070) -/

/-- The per-game numeric fields of one player/team stat row that the
verified claims concern (the remaining columns aggregate identically). -/
structure StatRow where
  -- `tov` embeds the source column `to` (turnovers); `to` is a Lean keyword
  p2m : ℚ
  p2a : ℚ
  p3m : ℚ
  p3a : ℚ
  fgm : ℚ
  fga : ℚ
  ftm : ℚ
  fta : ℚ
  off : ℚ
  tov : ℚ
deriving DecidableEq

/-- Arithmetic mean of a field over a group of game rows (pandas
`groupby(...).mean()`; groups are nonempty by construction). -/
def avgOf (games : List StatRow) (f : StatRow → ℚ) : ℚ :=
  qdiv (qsum (games.map f)) (qofn games.length)

/-- pandas `(m / a).fillna(0)`: `0/0` is `NaN` and becomes 0; `m/0` with
`m ≠ 0` is `±inf`, which `fillna` does **not** replace — modelled as `none`. -/
def pd_div_fillna0 (m a : ℚ) : Option ℚ :=
  if a = qofn 0 then (if m = qofn 0 then some (qofn 0) else none)
  else some (qdiv m a)

/-- Recomputed percentage of the aggregation phase:
`(made_avg / att_avg).fillna(0) * 100`. -/
def pct_of_avg (m a : ℚ) : Option ℚ :=
  (pd_div_fillna0 m a).map (fun x => qmul x (qofn 100))

/-- An averaged row (player variant): per-field means and recomputed
percentages, everything rounded to one decimal by the final `.round(1)`
(non-finite percentages stay non-finite). -/
structure AvgRow where
  p2m : ℚ
  p2a : ℚ
  p3m : ℚ
  p3a : ℚ
  fgm : ℚ
  fga : ℚ
  ftm : ℚ
  fta : ℚ
  off : ℚ
  tov : ℚ
  p2_pct : Option ℚ
  p3_pct : Option ℚ
  fg_pct : Option ℚ
  ft_pct : Option ℚ
deriving DecidableEq

/-- The team variant additionally carries the possessions estimate. -/
structure TeamAvgRow extends AvgRow where
  possessions : ℚ
deriving DecidableEq

/-- Player-averages pipeline for one `(player, team)` group: mean each
numeric column, recompute the percentage fields from the averaged
made/attempted pairs, then round the whole row to one decimal. -/
def calc_player_avg (games : List StatRow) : AvgRow :=
  let m := avgOf games
  { p2m := round1 (m (·.p2m)), p2a := round1 (m (·.p2a))
    p3m := round1 (m (·.p3m)), p3a := round1 (m (·.p3a))
    fgm := round1 (m (·.fgm)), fga := round1 (m (·.fga))
    ftm := round1 (m (·.ftm)), fta := round1 (m (·.fta))
    off := round1 (m (·.off)), tov := round1 (m (·.tov))
    p2_pct := (pct_of_avg (m (·.p2m)) (m (·.p2a))).map round1
    p3_pct := (pct_of_avg (m (·.p3m)) (m (·.p3a))).map round1
    fg_pct := (pct_of_avg (m (·.fgm)) (m (·.fga))).map round1
    ft_pct := (pct_of_avg (m (·.ftm)) (m (·.fta))).map round1 }

/-- Team-averages pipeline for one team group: mean each numeric column,
derive `possessions = round((fga + 0.44*fta - off + to), 2)` from the
(unrounded) means, recompute the percentage fields, then round the whole
table — the possessions column included — to one decimal. -/
def calc_team_avg (games : List StatRow) : TeamAvgRow :=
  let m := avgOf games
  { toAvgRow := calc_player_avg games
    possessions :=
      round1 (round2 (qadd (qsub (qadd (m (·.fga)) (qmul (mkRat 44 100) (m (·.fta))))
        (m (·.off))) (m (·.tov)))) }

/-! ### Quarter-score extraction (`scrape_quarter_scores`,
source lines 456-523) -/

/-- One `<tr>` of the results table: the (already text-extracted) team-name
cell if a `data-name` cell exists, and the four quarter cells. -/
structure QRow where
  name : Option String
  q1 : Option String
  q2 : Option String
  q3 : Option String
  q4 : Option String
deriving DecidableEq

/-- An emitted quarter record. -/
structure QRec where
  game_id : String
  team : String
  opponent : String
  quarter : String
  score : ℤ
  score_against : ℤ
deriving DecidableEq

/-- A quarter cell: missing `<td>` defaults to `'0'`;
`int(text) if text.isdigit() else 0`. -/
def qcellInt (c : Option String) : ℤ := pyDigitInt (c.getD "0")

/-- The four records emitted for one perspective (`row` is the own row,
`oppRow` the opponent row, per `rows[idx]` / `rows[1 - idx]`). -/
def quarterRecsFor (gid team opp : String) (row oppRow : QRow) : List QRec :=
  [⟨gid, team, opp, "Q1", qcellInt row.q1, qcellInt oppRow.q1⟩,
   ⟨gid, team, opp, "Q2", qcellInt row.q2, qcellInt oppRow.q2⟩,
   ⟨gid, team, opp, "Q3", qcellInt row.q3, qcellInt oppRow.q3⟩,
   ⟨gid, team, opp, "Q4", qcellInt row.q4, qcellInt oppRow.q4⟩]

/-- The function `scrape_quarter_scores`.  The team list collects (and normalizes) the
name of every row that has a `data-name` cell; if its length is not exactly
two the function returns no records.  Otherwise the loop body reads the
quarter cells of `rows[idx]` for `idx = 0, 1`; if a third row exists the
iteration hits `teams[2]`, raises `IndexError`, and the handler returns the
records accumulated so far — which are exactly the eight records built from
the first two rows. -/
def scrape_quarter_scores (gid : String) (mapping : List (String × String))
    (rows : List QRow) : List QRec :=
  let teams := rows.filterMap (fun r => r.name.map (normalize_team_name · mapping))
  if teams.length = 2 then
    match rows, teams with
    | r0 :: r1 :: _, [t0, t1] =>
      quarterRecsFor gid t0 t1 r0 r1 ++ quarterRecsFor gid t1 t0 r1 r0
    | _, _ => []
  else []

/-! ### Player season-history extraction (`scrape_player_history` /
`normalize_season`, source lines 114-119 and 202-239) -/

/-- The function `normalize_season`: `'2024-2025'` becomes `'2024-25'` (keep the last two
characters of the second part); anything not splitting into exactly two
parts is returned unchanged. -/
def normalize_season (s : String) : String :=
  match s.data.splitOn '-' with
  | [a, b] => String.mk (a ++ ['-'] ++ b.drop (b.length - 2))
  | _ => s

/-- One `<br>`-anchored entry of the `data-teams` block: the season span,
the team link and the league link, each possibly absent (an incomplete
entry is skipped by the source). -/
structure HistEntry where
  season : Option String
  team : Option String
  league : Option String
deriving DecidableEq

/-- The youth-league marker searched for with `"נוער" in league`. -/
def youth_marker : String := "נוער"

/-- An entry that is fully present and whose league text contains the youth
marker. -/
def isYouthEntry (e : HistEntry) : Bool :=
  e.season.isSome && e.team.isSome &&
  (match e.league with
   | some l => pyInStr youth_marker l
   | none => false)

/-- Number of complete youth-league entries in a list — exactly the entries
on which the traversal's youth counter increments. -/
def countYouthEntries (l : List HistEntry) : ℕ := l.countP isYouthEntry

/-- Update the value stored for a season key (dict update in place). -/
def updateVal (h : List (String × String)) (k v : String) : List (String × String) :=
  h.map (fun p => if p.1 = k then (p.1, v) else p)

/-- Record one complete entry under its normalized season: a repeated
season label comma-joins `"team (league)"` onto the stored value, a new
season label appends a fresh pair. -/
def addEntry (hist : List (String × String)) (season team league : String) :
    List (String × String) :=
  match dlookup hist season with
  | some v => updateVal hist season (v ++ ", " ++ (team ++ " (" ++ league ++ ")"))
  | none => hist ++ [(season, team ++ " (" ++ league ++ ")")]

/-- The traversal loop of `scrape_player_history`: complete entries are
recorded via `addEntry`; a youth-league entry first increments the counter
and, when the incremented counter exceeds one, the loop breaks — returning
the history collected so far without recording that entry; incomplete
entries are skipped. -/
def history_go : List HistEntry → List (String × String) → ℕ → List (String × String)
  | [], hist, _ => hist
  | e :: rest, hist, youth_count =>
    match e.season, e.team, e.league with
    | some season_raw, some team, some league =>
      if pyInStr youth_marker league then
        if 1 < youth_count + 1 then hist
        else history_go rest (addEntry hist (normalize_season season_raw) team league)
          (youth_count + 1)
      else history_go rest (addEntry hist (normalize_season season_raw) team league)
        youth_count
    | _, _, _ => history_go rest hist youth_count

/-- The function `scrape_player_history` on the extracted entries. -/
def scrape_player_history (entries : List HistEntry) : List (String × String) :=
  history_go entries [] 0

/-! ## Helper lemmas -/

/-- The operation `qadd` is rational addition. -/
theorem qadd_eq (a b : ℚ) : qadd a b = a + b := (Rat.add_def' a b).symm

/-- The operation `qsub` is rational subtraction. -/
theorem qsub_eq (a b : ℚ) : qsub a b = a - b := (Rat.sub_def' a b).symm

/-- The operation `qmul` is rational multiplication. -/
theorem qmul_eq (a b : ℚ) : qmul a b = a * b := by
  rw [qmul, ← Rat.mkRat_mul_mkRat, Rat.mkRat_self, Rat.mkRat_self]

/-- The map `qofi` is the integer embedding. -/
theorem qofi_eq (n : ℤ) : qofi n = (n : ℚ) := Rat.mkRat_one n

/-- The map `qofn` is the natural-number embedding. -/
theorem qofn_eq (n : ℕ) : qofn n = (n : ℚ) := by
  rw [qofn, Rat.mkRat_one]; norm_cast

/-- The operation `qdiv` is rational division (with the `x / 0 = 0` convention both share). -/
theorem qdiv_eq (a b : ℚ) : qdiv a b = a / b := by
  rcases eq_or_ne b.num 0 with h0 | h0
  · have hb0 : b = 0 := Rat.num_eq_zero.mp h0
    subst hb0
    rw [div_zero]
    simp [qdiv]
  · have hb : a / b = Rat.divInt (a.num * b.den) (a.den * b.num) := Rat.div_def' a b
    rw [qdiv, hb]
    rcases le_or_lt 0 b.num with hpos | hneg
    · rw [if_pos hpos]
      rw [show ((a.den : ℤ) * b.num) = ((a.den * b.num.natAbs : ℕ) : ℤ) by
        push_cast [abs_of_nonneg hpos]; ring]
      rw [Rat.divInt_ofNat]
    · rw [if_neg (not_le.mpr hneg)]
      have habs : (a.den : ℤ) * b.num = -((a.den * b.num.natAbs : ℕ) : ℤ) := by
        have h : (b.num.natAbs : ℤ) = -b.num := Int.ofNat_natAbs_of_nonpos hneg.le
        push_cast [h]; ring
      rw [habs, Rat.divInt_neg', ← Rat.divInt_ofNat]

/-! ## Claim theorems -/


/-- C3: team ranking ranks every statistic of the declared higher-is-better
set by descending value and the lower-is-better statistics (turnovers `to`,
personal fouls `pf`, blocks-against `blka`) by ascending value, with the
minimum-rank tie method: every value receives one plus the number of
strictly better values, so tied values share the best eligible rank and the
next distinct value skips; points-per-game `[90, 90, 85]` receives ranks
`[1, 1, 3]`. -/
theorem claim_C3_ranking_min_method :
    lower_better_cols = ["to", "pf", "blka"] ∧
    "pts" ∈ higher_better_cols ∧
    (∀ col vals, col ∈ higher_better_cols →
      team_rank_for col vals = some (rank_min false vals)) ∧
    (∀ col vals, col ∈ lower_better_cols →
      team_rank_for col vals = some (rank_min true vals)) ∧
    (∀ (asc : Bool) (l : List ℚ) (i : ℕ) (v : ℚ), l[i]? = some v →
      (rank_min asc l)[i]? =
        some (1 + l.countP (fun w => if asc then decide (w < v) else decide (v < w)))) ∧
    (∀ (asc : Bool) (l : List ℚ) (i j : ℕ) (v : ℚ), l[i]? = some v → l[j]? = some v →
      (rank_min asc l)[i]? = (rank_min asc l)[j]?) ∧
    team_rank_for "pts" [mkRat 90 1, mkRat 90 1, mkRat 85 1] = some [1, 1, 3] := by
  refine ⟨rfl, by decide, ?_, ?_, ?_, ?_, by decide⟩
  · intro col vals h
    simp [team_rank_for, h]
  · intro col vals h
    simp only [lower_better_cols] at h
    fin_cases h <;>
      · simp only [team_rank_for]
        rw [if_neg (by decide), if_pos (by decide)]
  · intro asc l i v h
    simp [rank_min, List.getElem?_map, h]
  · intro asc l i j v hi hj
    simp [rank_min, List.getElem?_map, hi, hj]

/-- Witness for C3: the tie-aware rank of the third team in `[90, 90, 85]`
under descending polarity is 3. -/
theorem claim_C3_ranking_min_method_witness :
    (rank_min false [mkRat 90 1, mkRat 90 1, mkRat 85 1])[2]? = some 3 := by
  have h := claim_C3_ranking_min_method.2.2.2.2.1 false
    [mkRat 90 1, mkRat 90 1, mkRat 85 1] 2 (mkRat 85 1) (by decide)
  rw [h]; decide

/-- C5: the completeness planner evaluates its rules in order with first
match winning — no detail record, blank DOB, blank height, blank number,
no real history, else complete — and in particular a player with full bio
but a bio-only history row is flagged `"No history data"`, while a player
missing only the jersey number is flagged `"Missing Number"` even with
populated history. -/
theorem claim_C5_planner_rules :
    (∀ h, needs_scraping none h = (true, "New player")) ∧
    (∀ r h, blankCell r.dob = true →
      needs_scraping (some r) h = (true, "Missing DOB")) ∧
    (∀ r h, blankCell r.dob = false → blankCell r.height = true →
      needs_scraping (some r) h = (true, "Missing Height")) ∧
    (∀ r h, blankCell r.dob = false → blankCell r.height = false →
      blankCell r.number = true →
      needs_scraping (some r) h = (true, "Missing Number")) ∧
    (∀ r h, blankCell r.dob = false → blankCell r.height = false →
      blankCell r.number = false → has_any_history h = false →
      needs_scraping (some r) h = (true, "No history data")) ∧
    (∀ r h, blankCell r.dob = false → blankCell r.height = false →
      blankCell r.number = false → has_any_history h = true →
      needs_scraping (some r) h = (false, "Complete data")) ∧
    needs_scraping (some ⟨some "01/01/2000", some "190", some "7"⟩)
      (some [("Name", some "P"), ("Current Team", some "T"),
             ("Date Of Birth", some "01/01/2000"), ("Height", some "190"),
             ("Number", some "7")]) = (true, "No history data") ∧
    needs_scraping (some ⟨some "01/01/2000", some "190", none⟩)
      (some [("Name", some "P"), ("Current Team", some "T"),
             ("Date Of Birth", some "01/01/2000"), ("Height", some "190"),
             ("Number", some "7"), ("2024-25", some "T (L)")]) =
      (true, "Missing Number") := by
  refine ⟨fun _ => rfl, ?_, ?_, ?_, ?_, ?_, by decide, by decide⟩
  · intro r h hd
    simp [needs_scraping, hd]
  · intro r h hd hh
    simp [needs_scraping, hd, hh]
  · intro r h hd hh hn
    simp [needs_scraping, hd, hh, hn]
  · intro r h hd hh hn hhist
    simp [needs_scraping, hd, hh, hn, hhist]
  · intro r h hd hh hn hhist
    simp [needs_scraping, hd, hh, hn, hhist]

/-- Witness for C5: the blank-DOB rule fires on a concrete record. -/
theorem claim_C5_planner_rules_witness :
    needs_scraping (some ⟨some " ", some "190", some "7"⟩) none =
      (true, "Missing DOB") :=
  claim_C5_planner_rules.2.1 ⟨some " ", some "190", some "7"⟩ none (by decide)

/-- C9: the opponent-averages ranking drops `opp_bench_pts` and `opp_pfa`
before ranking; every remaining `opp_`-prefixed column is ranked ascending
except `opp_to`, which alone is ranked descending. -/
theorem claim_C9_opponent_ranking :
    opp_cols_to_drop = ["opp_bench_pts", "opp_pfa"] ∧
    (∀ cols col vals, col ∈ opp_cols_to_drop →
      opponent_rank_for cols col vals = none) ∧
    (∀ cols col vals, col ∈ cols → pyStartsWith "opp_" col = true →
      col ∉ opp_cols_to_drop → col ≠ "opp_to" →
      opponent_rank_for cols col vals = some (rank_min true vals)) ∧
    (∀ cols vals, "opp_to" ∈ cols →
      opponent_rank_for cols "opp_to" vals = some (rank_min false vals)) := by
  refine ⟨rfl, ?_, ?_, ?_⟩
  · intro cols col vals hdrop
    simp only [opponent_rank_for]
    rw [if_neg]
    rintro ⟨hrem, -⟩
    have := (List.mem_filter.mp hrem).2
    rw [decide_eq_true_eq] at this
    exact this hdrop
  · intro cols col vals hmem hpre hdrop hto
    have hin : col ∈ cols.filter (fun c => decide (c ∉ opp_cols_to_drop)) :=
      List.mem_filter.mpr ⟨hmem, decide_eq_true hdrop⟩
    simp only [opponent_rank_for]
    rw [if_pos ⟨hin, hpre⟩, if_neg hto]
  · intro cols vals hmem
    have hin : "opp_to" ∈ cols.filter (fun c => decide (c ∉ opp_cols_to_drop)) :=
      List.mem_filter.mpr ⟨hmem, by decide⟩
    simp only [opponent_rank_for]
    rw [if_pos ⟨hin, by decide⟩]
    simp

/-- Witness for C9: a concrete non-exempt opponent column ranks ascending. -/
theorem claim_C9_opponent_ranking_witness :
    opponent_rank_for ["opp_pts", "opp_to", "opp_bench_pts"] "opp_pts"
      [mkRat 70 1, mkRat 80 1] = some [1, 2] := by
  have h := claim_C9_opponent_ranking.2.2.1 ["opp_pts", "opp_to", "opp_bench_pts"]
    "opp_pts" [mkRat 70 1, mkRat 80 1] (by decide) (by decide) (by decide) (by decide)
  rw [h]; decide


/-- C2 counterexample: a row whose raw minutes value is the bare string
`"0"` (zero playing time) and one whose value is `"0:15"` (rounding to zero
minutes) are both kept in the emitted player stats with minutes 0 — the
source only excludes the exact strings `'00:00'` and `'0:00'` — refuting
the claim that a player row appears only if minutes played is nonzero. -/
theorem claim_C2_minutes_counterexample :
    scrape_player_rows [⟨some "X", some "0"⟩, ⟨some "Y", some "0:15"⟩] =
      [("X", 0), ("Y", 0)] := by decide

/-- C2 (amended): minutes normalization behaves as claimed — `"mm:ss"`
rounds up at 30 seconds or more, a bare integer string passes through,
an unparsable value coerces to 0 — but row exclusion is by raw string
equality: exactly the rows whose raw minutes value is `'00:00'` or `'0:00'`
(or absent, defaulting to `'00:00'`) are dropped, and any other row is kept
even when its playing time normalizes to zero minutes. -/
theorem claim_C2_minutes_amended :
    (∀ s p0 p1 rest m secs, pyHasChar ':' s = true →
      pySplitChar ':' s = p0 :: p1 :: rest →
      pyIntOpt p0 = some m → pyIntOpt p1 = some secs →
      normalize_min s = if 30 ≤ secs then m + 1 else m) ∧
    (∀ s n, pyHasChar ':' s = false → pyIntOpt s = some n → normalize_min s = n) ∧
    (∀ s, pyHasChar ':' s = false → pyIntOpt s = none → normalize_min s = 0) ∧
    (∀ s p0 p1 rest, pyHasChar ':' s = true →
      pySplitChar ':' s = p0 :: p1 :: rest → pyIntOpt p0 = none →
      normalize_min s = 0) ∧
    normalize_min "24:29" = 24 ∧
    normalize_min "24:30" = 25 ∧
    (∀ name m, name ≠ "" → m ∉ (["00:00", "0:00"] : List String) →
      scrape_player_rows [⟨some name, some m⟩] = [(name, normalize_min m)]) ∧
    (∀ name, scrape_player_rows [⟨some name, some "00:00"⟩] = [] ∧
      scrape_player_rows [⟨some name, some "0:00"⟩] = [] ∧
      scrape_player_rows [⟨some name, none⟩] = []) := by
  refine ⟨?_, ?_, ?_, ?_, by decide, by decide, ?_, ?_⟩
  · intro s p0 p1 rest m secs hc hsp h0 h1
    simp only [normalize_min, hc, hsp, h0, h1, if_true]
  · intro s n hc h
    simp only [normalize_min, hc, h, Bool.false_eq_true, if_false]
  · intro s hc h
    simp only [normalize_min, hc, h, Bool.false_eq_true, if_false]
  · intro s p0 p1 rest hc hsp h0
    simp only [normalize_min, hc, hsp, h0, if_true]
  · intro name m hn hm
    have h1 : m ≠ "00:00" := fun h => hm (by simp [h])
    have h2 : m ≠ "0:00" := fun h => hm (by simp [h])
    simp [scrape_player_rows, row_included, hn, h1, h2]
  · intro name
    refine ⟨?_, ?_, ?_⟩ <;> simp [scrape_player_rows, row_included]

/-- Witness for C2 (amended): a concrete kept row with rounded-up minutes. -/
theorem claim_C2_minutes_amended_witness :
    scrape_player_rows [⟨some "A", some "24:30"⟩] = [("A", 25)] := by
  have h := claim_C2_minutes_amended.2.2.2.2.2.2.1 "A" "24:30"
    (by decide) (by decide)
  rw [h]; decide

/-- The break rule of the history traversal: if the entries processed so far
contain exactly one complete youth-league entry (so the loop never broke in
them), the next complete youth-league entry stops the traversal — it is not
added, and nothing after it is processed. -/
theorem history_go_stop (ys : List HistEntry) (e : HistEntry)
    (he : isYouthEntry e = true) :
    ∀ (xs : List HistEntry) (hist : List (String × String)) (c : ℕ),
      c + countYouthEntries xs = 1 →
      history_go (xs ++ e :: ys) hist c = history_go xs hist c := by
  intro xs
  induction xs with
  | nil =>
    intro hist c hc
    simp only [countYouthEntries, List.countP_nil, Nat.add_zero] at hc
    subst hc
    obtain ⟨es, et, el⟩ := e
    cases es with
    | none => simp [isYouthEntry] at he
    | some sr =>
      cases et with
      | none => simp [isYouthEntry] at he
      | some t =>
        cases el with
        | none => simp [isYouthEntry] at he
        | some l =>
          have hm : pyInStr youth_marker l = true := by
            simpa [isYouthEntry] using he
          simp [history_go, hm]
  | cons x xs ih =>
    intro hist c hc
    obtain ⟨xs_s, xs_t, xs_l⟩ := x
    cases xs_s with
    | none =>
      have hcount : countYouthEntries (⟨none, xs_t, xs_l⟩ :: xs) = countYouthEntries xs := by
        simp [countYouthEntries, List.countP_cons, isYouthEntry]
      rw [hcount] at hc
      simpa [history_go] using ih hist c hc
    | some sr =>
      cases xs_t with
      | none =>
        have hcount : countYouthEntries (⟨some sr, none, xs_l⟩ :: xs) =
            countYouthEntries xs := by
          simp [countYouthEntries, List.countP_cons, isYouthEntry]
        rw [hcount] at hc
        simpa [history_go] using ih hist c hc
      | some t =>
        cases xs_l with
        | none =>
          have hcount : countYouthEntries (⟨some sr, some t, none⟩ :: xs) =
              countYouthEntries xs := by
            simp [countYouthEntries, List.countP_cons, isYouthEntry]
          rw [hcount] at hc
          simpa [history_go] using ih hist c hc
        | some l =>
          by_cases hyl : pyInStr youth_marker l = true
          · have hcount : countYouthEntries (⟨some sr, some t, some l⟩ :: xs) =
                countYouthEntries xs + 1 := by
              simp [countYouthEntries, List.countP_cons, isYouthEntry, hyl]
            rw [hcount] at hc
            have hc0 : c = 0 := by omega
            have hxs : countYouthEntries xs = 0 := by omega
            subst hc0
            simp only [List.cons_append, history_go, hyl, if_true]
            rw [if_neg (by omega), if_neg (by omega)]
            exact ih _ _ (by omega)
          · have hyl' : pyInStr youth_marker l = false := by
              simpa using hyl
            have hcount : countYouthEntries (⟨some sr, some t, some l⟩ :: xs) =
                countYouthEntries xs := by
              simp [countYouthEntries, List.countP_cons, isYouthEntry, hyl']
            rw [hcount] at hc
            simp only [List.cons_append, history_go, hyl', Bool.false_eq_true,
              if_false]
            exact ih _ _ (by omega)

/-- C10: the season-history traversal collects the first youth-league entry
but stops as soon as a second complete youth-league entry is encountered —
that entry and everything after it are not added — and repeated season
labels collected before the stop are comma-joined into one value. -/
theorem claim_C10_history_truncation :
    (∀ xs e ys, countYouthEntries xs = 1 → isYouthEntry e = true →
      scrape_player_history (xs ++ e :: ys) = scrape_player_history xs) ∧
    scrape_player_history
      [⟨some "2024-2025", some "T1", some "ליגת נוער"⟩,
       ⟨some "2023-2024", some "T2", some "לאומית"⟩,
       ⟨some "2023-2024", some "T3", some "אחרת"⟩,
       ⟨some "2022-2023", some "T4", some "נוער על"⟩,
       ⟨some "2021-2022", some "T5", some "לאומית"⟩] =
      [("2024-25", "T1 (ליגת נוער)"), ("2023-24", "T2 (לאומית), T3 (אחרת)")] := by
  refine ⟨?_, by decide⟩
  intro xs e ys hxs he
  exact history_go_stop ys e he xs [] 0 (by omega)

/-- Witness for C10: one youth entry followed by a league entry, then a
second youth entry and a further entry — the traversal output equals that
of the first two entries alone. -/
theorem claim_C10_history_truncation_witness :
    scrape_player_history
      [⟨some "2024-2025", some "T1", some "נוער לאומית"⟩,
       ⟨some "2023-2024", some "T2", some "לאומית"⟩,
       ⟨some "2022-2023", some "T3", some "נוער על"⟩,
       ⟨some "2021-2022", some "T4", some "לאומית"⟩] =
    scrape_player_history
      [⟨some "2024-2025", some "T1", some "נוער לאומית"⟩,
       ⟨some "2023-2024", some "T2", some "לאומית"⟩] :=
  claim_C10_history_truncation.1
    [⟨some "2024-2025", some "T1", some "נוער לאומית"⟩,
     ⟨some "2023-2024", some "T2", some "לאומית"⟩]
    ⟨some "2022-2023", some "T3", some "נוער על"⟩
    [⟨some "2021-2022", some "T4", some "לאומית"⟩]
    (by decide) (by decide)


/-- Pushing one row's insertions onto an accumulator reverses them. -/
theorem foldl_cons_reverse (l : List (String × String)) :
    ∀ m, l.foldl (fun m p => p :: m) m = l.reverse ++ m := by
  induction l with
  | nil => intro m; rfl
  | cons p l ih => intro m; simp [List.foldl_cons, ih, List.reverse_cons]

/-- The built mapping is exactly the reversed list of all insertions, so
`dlookup` finds the latest insertion for a key. -/
theorem load_team_mapping_eq (rows : List TeamNameRow) :
    load_team_mapping rows = (allPairs rows).reverse := by
  suffices h : ∀ m, rows.foldl (fun m r => (rowPairs r).foldl (fun m p => p :: m) m) m =
      (allPairs rows).reverse ++ m by
    exact (h []).trans (List.append_nil _)
  induction rows with
  | nil => intro m; simp [allPairs]
  | cons r rows ih =>
    intro m
    rw [List.foldl_cons, foldl_cons_reverse, ih]
    simp [allPairs, List.flatMap_cons, List.reverse_append, List.append_assoc]

/-- A successful `dlookup` returns a pair of the list. -/
theorem dlookup_mem {l : List (String × String)} {k v : String}
    (h : dlookup l k = some v) : (k, v) ∈ l := by
  induction l with
  | nil => simp [dlookup] at h
  | cons p l ih =>
    obtain ⟨k', v'⟩ := p
    rw [dlookup] at h
    by_cases hk : k = k'
    · rw [if_pos hk] at h
      injection h with h
      subst h
      subst hk
      exact List.mem_cons_self _ _
    · rw [if_neg hk] at h
      exact List.mem_cons_of_mem _ (ih h)

/-- A key occurring in the list makes `dlookup` succeed. -/
theorem dlookup_isSome {l : List (String × String)} {k v : String}
    (h : (k, v) ∈ l) : ∃ w, dlookup l k = some w := by
  induction l with
  | nil => simp at h
  | cons p l ih =>
    obtain ⟨k', v'⟩ := p
    by_cases hk : k = k'
    · exact ⟨v', by rw [dlookup, if_pos hk]⟩
    · rcases List.mem_cons.mp h with heq | hmem
      · exact absurd (congrArg Prod.fst heq) hk
      · obtain ⟨w, hw⟩ := ih hmem
        exact ⟨w, by rw [dlookup, if_neg hk, hw]⟩

/-- Under a consistent reference table, looking a registered name up in the
built mapping returns its canonical name. -/
theorem dlookup_load_of_mem {rows : List TeamNameRow}
    (hcons : pairwiseConsistent (allPairs rows) = true) {k v : String}
    (h : (k, v) ∈ allPairs rows) :
    dlookup (load_team_mapping rows) k = some v := by
  have hmemrev : (k, v) ∈ (allPairs rows).reverse := List.mem_reverse.mpr h
  rw [load_team_mapping_eq]
  obtain ⟨w, hw⟩ := dlookup_isSome hmemrev
  have hwmem : (k, w) ∈ allPairs rows := List.mem_reverse.mp (dlookup_mem hw)
  have hcons' : ∀ p ∈ allPairs rows, ∀ q ∈ allPairs rows, p.1 = q.1 → p.2 = q.2 := by
    intro p hp q hq hpq
    have := List.all_eq_true.mp hcons p hp
    have := List.all_eq_true.mp this q hq
    simpa [hpq] using this
  have : w = v := hcons' (k, w) hwmem (k, v) h rfl
  rw [hw, this]

/-- Exact-match resolution. -/
theorem resolve_exact {m : List (String × String)} {k v : String}
    (h : dlookup m k = some v) : normalize_team_name k m = v := by
  have hm : m ≠ [] := by
    intro he
    subst he
    simp [dlookup] at h
  simp [normalize_team_name, hm, h]

/-- C4 counterexample: in the table `[(canonical "A", variants "p1", "s1"),
(canonical "C", variants "A", "s2")]` the second row registers the first
row's canonical name `"A"` as a variant of `"C"`; the later dict insertion
overwrites the self-mapping, so resolving the canonical name `"A"` returns
`"C"`, not `"A"` — refuting `resolve(c) = c` for mappings built from an
arbitrary reference table. -/
theorem claim_C4_resolver_counterexample :
    (⟨"A", "p1", "s1", none⟩ : TeamNameRow).normalized_name = "A" ∧
    normalize_team_name "A" (load_team_mapping
      [⟨"A", "p1", "s1", none⟩, ⟨"C", "A", "s2", none⟩]) = "C" ∧
    ("C" : String) ≠ "A" := by decide

/-- C4 (amended): for every mapping built from a reference table in which no
observed name is registered under two different canonical names
(`pairwiseConsistent`), resolving a canonical name returns itself and
resolving any registered variant returns its canonical name;
unconditionally, resolution tries an exact match first, then a match after
stripping surrounding whitespace, and an unregistered name (no exact and no
stripped match) is returned unchanged. -/
theorem claim_C4_resolver_amended (rows : List TeamNameRow)
    (hcons : pairwiseConsistent (allPairs rows) = true) :
    (∀ r ∈ rows, normalize_team_name r.normalized_name (load_team_mapping rows) =
      r.normalized_name) ∧
    (∀ v c, (v, c) ∈ allPairs rows →
      normalize_team_name v (load_team_mapping rows) = c) ∧
    (∀ name c, dlookup (load_team_mapping rows) name = some c →
      normalize_team_name name (load_team_mapping rows) = c) ∧
    (∀ name c, dlookup (load_team_mapping rows) name = none →
      dlookup (load_team_mapping rows) (pyStrip name) = some c →
      normalize_team_name name (load_team_mapping rows) = c) ∧
    (∀ name, dlookup (load_team_mapping rows) name = none →
      dlookup (load_team_mapping rows) (pyStrip name) = none →
      normalize_team_name name (load_team_mapping rows) = name) := by
  refine ⟨?_, ?_, ?_, ?_, ?_⟩
  · intro r hr
    refine resolve_exact (dlookup_load_of_mem hcons ?_)
    refine List.mem_flatMap.mpr ⟨r, hr, ?_⟩
    simp [rowPairs]
  · intro v c hvc
    exact resolve_exact (dlookup_load_of_mem hcons hvc)
  · intro name c h
    exact resolve_exact h
  · intro name c h1 h2
    have hm : load_team_mapping rows ≠ [] := by
      intro he
      rw [he] at h2
      simp [dlookup] at h2
    simp [normalize_team_name, hm, h1, h2]
  · intro name h1 h2
    by_cases hm : load_team_mapping rows = []
    · simp [normalize_team_name, hm]
    · simp [normalize_team_name, hm, h1, h2]

/-- Witness for C4 (amended): on a consistent one-team table, the canonical
name, a registered variant, and a whitespace-padded variant all resolve to
the canonical name, and an unknown name passes through. -/
theorem claim_C4_resolver_amended_witness :
    normalize_team_name "hta"
      (load_team_mapping [⟨"Hapoel", "Hapoel TA", "Hapoel Tel-Aviv", some "hta"⟩]) =
      "Hapoel" := by
  have h := claim_C4_resolver_amended
    [⟨"Hapoel", "Hapoel TA", "Hapoel Tel-Aviv", some "hta"⟩] (by decide)
  exact h.2.1 "hta" "Hapoel" (by decide)


/-- C8 counterexample: a results table whose `tbody` holds an extra first
row without a `data-name` cell, followed by exactly two team rows `"A"` and
`"B"`.  The team list has length two, so extraction proceeds — but the loop
reads quarter cells positionally from `rows[0]` and `rows[1]`, so the
record emitted for team `"A"` carries score 99 from the nameless row
instead of `"A"`'s own Q1 cell `"10"` (and the third iteration raises
`IndexError`, returning these misaligned records). -/
theorem claim_C8_quarters_counterexample :
    (([⟨none, some "99", some "98", some "97", some "96"⟩,
       ⟨some "A", some "10", some "11", some "12", some "13"⟩,
       ⟨some "B", some "20", some "21", some "22", some "23"⟩] : List QRow).filterMap
        (fun r => r.name.map (normalize_team_name · []))).length = 2 ∧
    (scrape_quarter_scores "g" []
      [⟨none, some "99", some "98", some "97", some "96"⟩,
       ⟨some "A", some "10", some "11", some "12", some "13"⟩,
       ⟨some "B", some "20", some "21", some "22", some "23"⟩]).head? =
      some ⟨"g", "A", "B", "Q1", 99, 10⟩ ∧
    ((99 : ℤ) ≠ 10) := by decide

/-- C8 (amended): if the number of team rows (rows carrying a name cell) is
not exactly two, no quarter records are emitted; when the results table
consists of exactly two rows, each carrying a team cell, the extraction
emits for each quarter both perspective rows, with `score` the own row's
quarter cell and `score_against` the other row's, missing cells defaulting
to `'0'` and non-numeric text coercing to 0.  (With extra rows beyond the
two team rows, scores are read positionally from the first two rows and may
misalign, as the counterexample shows.) -/
theorem claim_C8_quarters_amended :
    (∀ gid mapping rows,
      (rows.filterMap (fun r => r.name.map (normalize_team_name · mapping))).length ≠ 2 →
      scrape_quarter_scores gid mapping rows = []) ∧
    (∀ gid mapping (r0 r1 : QRow) n0 n1, r0.name = some n0 → r1.name = some n1 →
      scrape_quarter_scores gid mapping [r0, r1] =
        [⟨gid, normalize_team_name n0 mapping, normalize_team_name n1 mapping, "Q1",
           pyDigitInt (r0.q1.getD "0"), pyDigitInt (r1.q1.getD "0")⟩,
         ⟨gid, normalize_team_name n0 mapping, normalize_team_name n1 mapping, "Q2",
           pyDigitInt (r0.q2.getD "0"), pyDigitInt (r1.q2.getD "0")⟩,
         ⟨gid, normalize_team_name n0 mapping, normalize_team_name n1 mapping, "Q3",
           pyDigitInt (r0.q3.getD "0"), pyDigitInt (r1.q3.getD "0")⟩,
         ⟨gid, normalize_team_name n0 mapping, normalize_team_name n1 mapping, "Q4",
           pyDigitInt (r0.q4.getD "0"), pyDigitInt (r1.q4.getD "0")⟩,
         ⟨gid, normalize_team_name n1 mapping, normalize_team_name n0 mapping, "Q1",
           pyDigitInt (r1.q1.getD "0"), pyDigitInt (r0.q1.getD "0")⟩,
         ⟨gid, normalize_team_name n1 mapping, normalize_team_name n0 mapping, "Q2",
           pyDigitInt (r1.q2.getD "0"), pyDigitInt (r0.q2.getD "0")⟩,
         ⟨gid, normalize_team_name n1 mapping, normalize_team_name n0 mapping, "Q3",
           pyDigitInt (r1.q3.getD "0"), pyDigitInt (r0.q3.getD "0")⟩,
         ⟨gid, normalize_team_name n1 mapping, normalize_team_name n0 mapping, "Q4",
           pyDigitInt (r1.q4.getD "0"), pyDigitInt (r0.q4.getD "0")⟩]) := by
  constructor
  · intro gid mapping rows h
    simp only [scrape_quarter_scores]
    rw [if_neg h]
  · intro gid mapping r0 r1 n0 n1 h0 h1
    simp [scrape_quarter_scores, h0, h1, quarterRecsFor, qcellInt]

/-- Witness for C8 (amended): a two-row table with a missing cell and a
non-numeric cell produces the eight records with the described coercions. -/
theorem claim_C8_quarters_amended_witness :
    scrape_quarter_scores "g7" []
      [⟨some "A", some "10", some "11", some "12", none⟩,
       ⟨some "B", some "x", some "21", some "22", some "23"⟩] =
      [⟨"g7", "A", "B", "Q1", 10, 0⟩, ⟨"g7", "A", "B", "Q2", 11, 21⟩,
       ⟨"g7", "A", "B", "Q3", 12, 22⟩, ⟨"g7", "A", "B", "Q4", 0, 23⟩,
       ⟨"g7", "B", "A", "Q1", 0, 10⟩, ⟨"g7", "B", "A", "Q2", 21, 11⟩,
       ⟨"g7", "B", "A", "Q3", 22, 12⟩, ⟨"g7", "B", "A", "Q4", 23, 0⟩] := by
  have h := claim_C8_quarters_amended.2 "g7" []
    ⟨some "A", some "10", some "11", some "12", none⟩
    ⟨some "B", some "x", some "21", some "22", some "23"⟩ "A" "B" rfl rfl
  rw [h]; decide


/-- C6 counterexample: two games with integer box-score values whose team
averages are `fga = 80`, `fta = 20.5`, `off = 10`, `to = 14`.  The
possessions estimate `80 + 0.44*20.5 - 10 + 14 = 93.02` is indeed rounded
to two decimals by the formula line, but the subsequent whole-table
`.round(1)` rounds the stored field again to one decimal: the emitted
possessions value is `93.0`, not the two-decimal `93.02` the claim
prescribes. -/
theorem claim_C6_possessions_counterexample :
    avgOf [⟨qofn 0, qofn 0, qofn 0, qofn 0, qofn 0, qofn 80, qofn 0, qofn 20, qofn 10, qofn 14⟩,
           ⟨qofn 0, qofn 0, qofn 0, qofn 0, qofn 0, qofn 80, qofn 0, qofn 21, qofn 10, qofn 14⟩]
      (fun r => r.fta) = mkRat 41 2 ∧
    round2 (qadd (qsub (qadd (qofn 80) (qmul (mkRat 44 100) (mkRat 41 2))) (qofn 10))
      (qofn 14)) = mkRat 9302 100 ∧
    (calc_team_avg
      [⟨qofn 0, qofn 0, qofn 0, qofn 0, qofn 0, qofn 80, qofn 0, qofn 20, qofn 10, qofn 14⟩,
       ⟨qofn 0, qofn 0, qofn 0, qofn 0, qofn 0, qofn 80, qofn 0, qofn 21, qofn 10, qofn 14⟩]).possessions =
      qofn 93 ∧
    qofn 93 ≠ mkRat 9302 100 := by decide

/-- C6 (amended): the possessions field of a team-averages row is
`round1 (round2 (fga + 0.44*fta - off + to))` over the per-team averaged
values — the two-decimal rounding of the formula line followed by the
one-decimal rounding applied to the whole averages table — and the claim's
example (averages `fga=80, fta=20, off=10, to=14`) yields `92.8`. -/
theorem claim_C6_possessions_amended :
    (∀ games : List StatRow, (calc_team_avg games).possessions =
      round1 (round2 (qadd (qsub (qadd (avgOf games (fun r => r.fga))
        (qmul (mkRat 44 100) (avgOf games (fun r => r.fta))))
        (avgOf games (fun r => r.off))) (avgOf games (fun r => r.tov))))) ∧
    (calc_team_avg
      [⟨qofn 0, qofn 0, qofn 0, qofn 0, qofn 0, qofn 80, qofn 0, qofn 20, qofn 10, qofn 14⟩]).possessions =
      mkRat 464 5 :=
  ⟨fun _ => rfl, by decide⟩

/-- C7 counterexample: a single game row with `2ptm = 7` and `2pta = 0`
(producible by the scraper itself from a malformed composite cell such as
`"7-x"`, whose attempt part coerces to 0).  The averaged attempts are 0
while the averaged makes are 7, so pandas computes `7/0 = inf`, which
`fillna(0)` does not replace: the recomputed percentage is non-finite
(modelled `none`), not the claimed default 0 — for the player pipeline and
the team pipeline alike. -/
theorem claim_C7_pct_counterexample :
    (calc_player_avg
      [⟨qofn 7, qofn 0, qofn 0, qofn 0, qofn 0, qofn 0, qofn 0, qofn 0, qofn 0, qofn 0⟩]).p2_pct =
      none ∧
    (calc_team_avg
      [⟨qofn 7, qofn 0, qofn 0, qofn 0, qofn 0, qofn 0, qofn 0, qofn 0, qofn 0, qofn 0⟩]).p2_pct =
      none ∧
    (none : Option ℚ) ≠ some (qofn 0) := by decide

/-- C7 (amended): every percentage field of a player or team average row is
recomputed from that entity's averaged made/attempted pair (the per-game
percentage columns are not aggregated at all), and when the averaged
attempted value is 0 the percentage defaults to 0 only if the averaged made
value is also 0 (the `0/0 = NaN` case replaced by `fillna(0)`); when the
averaged made value is nonzero the result is non-finite (`inf`, modelled
`none`), not 0. -/
theorem claim_C7_pct_amended :
    (∀ games : List StatRow, (calc_player_avg games).p2_pct =
      (pct_of_avg (avgOf games (fun r => r.p2m)) (avgOf games (fun r => r.p2a))).map round1) ∧
    (∀ games : List StatRow, (calc_player_avg games).p3_pct =
      (pct_of_avg (avgOf games (fun r => r.p3m)) (avgOf games (fun r => r.p3a))).map round1) ∧
    (∀ games : List StatRow, (calc_player_avg games).fg_pct =
      (pct_of_avg (avgOf games (fun r => r.fgm)) (avgOf games (fun r => r.fga))).map round1) ∧
    (∀ games : List StatRow, (calc_player_avg games).ft_pct =
      (pct_of_avg (avgOf games (fun r => r.ftm)) (avgOf games (fun r => r.fta))).map round1) ∧
    (∀ games : List StatRow, (calc_team_avg games).toAvgRow = calc_player_avg games) ∧
    (∀ m a : ℚ, a ≠ qofn 0 →
      (pct_of_avg m a).map round1 = some (round1 (qmul (qdiv m a) (qofn 100)))) ∧
    ((pct_of_avg (qofn 0) (qofn 0)).map round1 = some (qofn 0)) ∧
    (∀ m : ℚ, m ≠ qofn 0 → (pct_of_avg m (qofn 0)).map round1 = none) := by
  refine ⟨fun _ => rfl, fun _ => rfl, fun _ => rfl, fun _ => rfl, fun _ => rfl, ?_, by decide, ?_⟩
  · intro m a ha
    simp [pct_of_avg, pd_div_fillna0, ha]
  · intro m hm
    simp [pct_of_avg, pd_div_fillna0, hm]

/-- Witness for C7 (amended): with nonzero averaged attempts the percentage
is the rounded ratio, and with makes 7 over attempts 0 it is non-finite. -/
theorem claim_C7_pct_amended_witness :
    (pct_of_avg (qofn 7) (qofn 12)).map round1 =
      some (round1 (qmul (qdiv (qofn 7) (qofn 12)) (qofn 100))) ∧
    (pct_of_avg (qofn 7) (qofn 0)).map round1 = none :=
  ⟨claim_C7_pct_amended.2.2.2.2.2.1 (qofn 7) (qofn 12) (by decide),
   claim_C7_pct_amended.2.2.2.2.2.2.2 (qofn 7) (by decide)⟩


/-- C1: for a stat record whose three composite shooting fields have the
form `"M-A"`, the decomposition writes the six integer made/attempted
fields and removes the composite fields; it sets `fgm = 2pt made + 3pt
made` and `fga = 2pt att + 3pt att`; each percentage field is
`round(made/attempted * 100, 1)` with 0.0 (not an error) when the attempt
count is 0; and the upstream percentage fields `fgpercent`,
`threeppercent`, `ftpercent` are deleted.  (`"7-12"` yields made 7,
attempted 12, pct 58.3.) -/
theorem claim_C1_shooting_split (d0 : StatDict)
    (s2 s3 sf M2 A2 M3 A3 Mf Af : String) (m2 a2 m3 a3 mf af : ℕ)
    (h2 : d0 "fgs" = some (.s s2)) (h2c : pyHasChar '-' s2 = true)
    (h2s : pySplitChar '-' s2 = [M2, A2])
    (h2m : digitsToNat? (pyStrip M2).data = some m2)
    (h2a : digitsToNat? (pyStrip A2).data = some a2)
    (h3 : d0 "threeps" = some (.s s3)) (h3c : pyHasChar '-' s3 = true)
    (h3s : pySplitChar '-' s3 = [M3, A3])
    (h3m : digitsToNat? (pyStrip M3).data = some m3)
    (h3a : digitsToNat? (pyStrip A3).data = some a3)
    (hf : d0 "fts" = some (.s sf)) (hfc : pyHasChar '-' sf = true)
    (hfs : pySplitChar '-' sf = [Mf, Af])
    (hfm : digitsToNat? (pyStrip Mf).data = some mf)
    (hfa : digitsToNat? (pyStrip Af).data = some af) :
    split_shooting_stats d0 "2ptm" = some (.i (m2 : ℤ)) ∧
    split_shooting_stats d0 "2pta" = some (.i (a2 : ℤ)) ∧
    split_shooting_stats d0 "3ptm" = some (.i (m3 : ℤ)) ∧
    split_shooting_stats d0 "3pta" = some (.i (a3 : ℤ)) ∧
    split_shooting_stats d0 "ftm" = some (.i (mf : ℤ)) ∧
    split_shooting_stats d0 "fta" = some (.i (af : ℤ)) ∧
    split_shooting_stats d0 "fgs" = none ∧
    split_shooting_stats d0 "threeps" = none ∧
    split_shooting_stats d0 "fts" = none ∧
    split_shooting_stats d0 "fgm" = some (.i ((m2 : ℤ) + (m3 : ℤ))) ∧
    split_shooting_stats d0 "fga" = some (.i ((a2 : ℤ) + (a3 : ℤ))) ∧
    split_shooting_stats d0 "2pt_pct" = some (.q (pctVal (m2 : ℤ) (a2 : ℤ))) ∧
    split_shooting_stats d0 "3pt_pct" = some (.q (pctVal (m3 : ℤ) (a3 : ℤ))) ∧
    split_shooting_stats d0 "fg_pct" =
      some (.q (pctVal ((m2 : ℤ) + (m3 : ℤ)) ((a2 : ℤ) + (a3 : ℤ)))) ∧
    split_shooting_stats d0 "ft_pct" = some (.q (pctVal (mf : ℤ) (af : ℤ))) ∧
    split_shooting_stats d0 "fgpercent" = none ∧
    split_shooting_stats d0 "threeppercent" = none ∧
    split_shooting_stats d0 "ftpercent" = none ∧
    (∀ made att : ℤ, 0 < att →
      pctVal made att = round1 (qmul (qdiv (qofi made) (qofi att)) (qofn 100))) ∧
    (∀ made : ℤ, pctVal made 0 = qofn 0) ∧
    pctVal 7 12 = mkRat 583 10 := by
  refine ⟨?_, ?_, ?_, ?_, ?_, ?_, ?_, ?_, ?_, ?_, ?_, ?_, ?_, ?_, ?_, ?_, ?_, ?_,
    ?_, ?_, ?_⟩ <;>
    first
      | (intro made att hatt; simp [pctVal, hatt])
      | (intro made; simp [pctVal])
      | decide
      | simp [split_shooting_stats, splitComposite, coerceKey, getIntD, dset, ddel,
          pyDigitInt, List.foldl_cons, List.foldl_nil,
          h2, h2c, h2s, h2m, h2a, h3, h3c, h3s, h3m, h3a, hf, hfc, hfs, hfm, hfa]

/-- Witness for C1: the record `{fgs: "7-12", threeps: "2-5", fts: "3-4",
fgpercent: "58%"}` decomposes to 2ptm 7, 2pta 12, fgm 9, fga 17, 2pt pct
58.3, and the upstream percentage field is gone. -/
theorem claim_C1_shooting_split_witness :
    (split_shooting_stats (fun k =>
      if k = "fgs" then some (.s "7-12")
      else if k = "threeps" then some (.s "2-5")
      else if k = "fts" then some (.s "3-4")
      else if k = "fgpercent" then some (.s "58%") else none)) "2ptm" =
        some (.i 7) ∧
    (split_shooting_stats (fun k =>
      if k = "fgs" then some (.s "7-12")
      else if k = "threeps" then some (.s "2-5")
      else if k = "fts" then some (.s "3-4")
      else if k = "fgpercent" then some (.s "58%") else none)) "2pt_pct" =
        some (.q (mkRat 583 10)) ∧
    (split_shooting_stats (fun k =>
      if k = "fgs" then some (.s "7-12")
      else if k = "threeps" then some (.s "2-5")
      else if k = "fts" then some (.s "3-4")
      else if k = "fgpercent" then some (.s "58%") else none)) "fgpercent" =
        none := by
  have h := claim_C1_shooting_split (fun k =>
      if k = "fgs" then some (.s "7-12")
      else if k = "threeps" then some (.s "2-5")
      else if k = "fts" then some (.s "3-4")
      else if k = "fgpercent" then some (.s "58%") else none)
    "7-12" "2-5" "3-4" "7" "12" "2" "5" "3" "4" 7 12 2 5 3 4
    (by decide) (by decide) (by decide) (by decide) (by decide)
    (by decide) (by decide) (by decide) (by decide) (by decide)
    (by decide) (by decide) (by decide) (by decide) (by decide)
  refine ⟨h.1, ?_, h.2.2.2.2.2.2.2.2.2.2.2.2.2.2.2.1⟩
  have hp := h.2.2.2.2.2.2.2.2.2.2.2.1
  rw [hp]
  decide

end LeumitDB
